import Mathlib

/-!
Verification of the UIDAI analytics backend against its specification.

The Python sources under `backend/` are shallowly embedded: pure numeric code
becomes functions over `ℚ` (Python floats are idealised as exact rationals;
where a float constant such as `log10(1 + 1/d)` is irrational it is treated as
a parameter), fallible code returns `Except PyErr`, pandas/NumPy operations
producing non-finite floats are modelled with `Option ℚ` (`none` = inf/NaN),
and the process-wide `functools.lru_cache` dataset cache is modelled as an
explicit optional memo cell.
-/

namespace UIDAI

/-- Python runtime errors reachable in the embedded code paths. -/
inductive PyErr where
  | keyError (k : String)
  | nameError (n : String)
  | zeroDivisionError
  deriving DecidableEq, Repr

/-- Python `int(x)` on a float: truncation toward zero. -/
def pyInt (q : ℚ) : ℤ := if 0 ≤ q then ⌊q⌋ else ⌈q⌉

/-- Python `round(x)` to an integer: round half to even (banker's rounding). -/
def pyRound (q : ℚ) : ℤ :=
  if q - ⌊q⌋ < 1/2 then ⌊q⌋
  else if 1/2 < q - ⌊q⌋ then ⌊q⌋ + 1
  else if ⌊q⌋ % 2 = 0 then ⌊q⌋ else ⌊q⌋ + 1

/-- Python `round(x, d)`: round half to even at `d` decimal places. -/
def pyRoundTo (q : ℚ) (d : ℕ) : ℚ := (pyRound (q * 10 ^ d) : ℚ) / 10 ^ d

/-- np.mean of a vector (the empty case gives 0 here; NumPy warns and yields NaN,
    a case the embedded call sites below never reach or guard explicitly). -/
def npMean (l : List ℚ) : ℚ := l.sum / l.length

/-- Population variance, the square of `np.std`. -/
def popVariance (l : List ℚ) : ℚ := ((l.map (fun x => (x - npMean l) ^ 2)).sum) / l.length

/-- pandas `.max()` of a series (call sites only reach it on non-empty data). -/
def pdMaxQ (l : List ℚ) : ℚ := (List.maximum l).unbot' 0

/-- pandas element-wise division: a zero denominator silently yields a non-finite
    float (`inf` for a non-zero numerator, NaN for 0/0) instead of raising; both
    non-finite outcomes are modelled as `none`. -/
def pdDiv (a b : ℚ) : Option ℚ := if b = 0 then none else some (a / b)

/-- Python dict subscript `d[k]`: the stored value, or a raised `KeyError`. -/
def dictGet (d : List (String × α)) (k : String) : Except PyErr α :=
  match d.find? (fun p => p.1 == k) with
  | some p => .ok p.2
  | none => .error (.keyError k)

/-- Leading decimal digit of a natural number, Python's `int(str(n)[0])`. -/
def firstDigit (n : ℕ) : ℕ :=
  if h : n < 10 then n else firstDigit (n / 10)
decreasing_by exact Nat.div_lt_self (by omega) (by omega)

/-- np.argmax over a boolean vector: index of the first `true`, and 0 when no
    entry is `true` (NumPy's all-False sentinel). -/
def npArgmaxBool (l : List Bool) : ℕ :=
  let i := l.findIdx (fun b => b)
  if i < l.length then i else 0

/-- np.percentile with the default linear interpolation: on the ascending sort `s`
    of the data, position `(n-1)*q/100` is split into integer part `i` and
    fraction `g`, giving `s i + g * (s (i+1) - s i)`. -/
def npPercentile (values : List ℚ) (q : ℚ) : ℚ :=
  let s := List.insertionSort (· ≤ ·) values
  let n := s.length
  let pos := ((n : ℚ) - 1) * q / 100
  let i := (⌊pos⌋).toNat
  let g := pos - ⌊pos⌋
  let lo := s.getD i 0
  let hi := s.getD (i + 1) lo
  lo + g * (hi - lo)

/-! ## fraud.benford_law_analysis (fraud.py lines 22-134)

`values = df['total_enrolments'].dropna(); values = values[values > 0]`, then
`first_digits = [int(str(abs(int(v)))[0]) for v in values if v >= 1]` filtered to
digits 1..9.  `observed_freq[d] = digit_counts.get(d, 0) / total_count` divides by
the raw count with no guard: on an input with no positive values this raises
`ZeroDivisionError`.  The expected frequencies `log10(1 + 1/d)` are irrational,
so they enter as a parameter `eF`; every theorem below holds for each choice,
in particular for the float values the Python process computes. -/

/-- First digits extracted by `benford_law_analysis` (fraud.py lines 30-34). -/
def firstDigits (values : List ℚ) : List ℕ :=
  (((values.filter (fun v => decide (0 < v))).filter (fun v => decide (1 ≤ v))).map
      (fun v => firstDigit (pyInt v).natAbs)).filter (fun d => decide (1 ≤ d ∧ d ≤ 9))

/-- Observed first-digit frequency of digit `d` (fraud.py line 39), on the
    non-empty path. -/
def observedFreq (values : List ℚ) (d : ℕ) : ℚ :=
  ((firstDigits values).count d : ℚ) / ((firstDigits values).length : ℚ)

/-- Chi-square statistic of `benford_law_analysis` (fraud.py lines 46-58):
    observed and expected counts are frequencies scaled by the sample size, and a
    zero expected count contributes 0. -/
def benfordChiSquare (values : List ℚ) (eF : ℕ → ℚ) : ℚ :=
  ∑ d in Finset.Icc 1 9,
    (if 0 < eF d * ((firstDigits values).length : ℚ) then
      (observedFreq values d * ((firstDigits values).length : ℚ) -
          eF d * ((firstDigits values).length : ℚ)) ^ 2 /
        (eF d * ((firstDigits values).length : ℚ))
    else 0)

/-- The parts of the Benford response the claims read: the reported
    `intermediate_values.observed_frequencies` (rounded to 4 decimal places,
    fraud.py line 118), the sample size, and the chi-square statistic together
    with its rounded `final_result` form (line 123).  The p-value (a scipy
    chi-squared CDF) and the derived risk label are not needed by any claim and
    are omitted. -/
structure BenfordResult where
  observed_frequencies : ℕ → ℚ
  sample_size : ℕ
  chi_square : ℚ
  chi_square_reported : ℚ

/-- fraud.benford_law_analysis: raises `ZeroDivisionError` at line 39 when the
    positive-value filter leaves nothing, otherwise returns the response parts. -/
def benford_law_analysis (eF : ℕ → ℚ) (values : List ℚ) :
    Except PyErr BenfordResult :=
  if (firstDigits values).length = 0 then .error .zeroDivisionError
  else .ok
    { observed_frequencies := fun d => pyRoundTo (observedFreq values d) 4
      sample_size := (firstDigits values).length
      chi_square := benfordChiSquare values eF
      chi_square_reported := pyRoundTo (benfordChiSquare values eF) 4 }

/-! ## fraud.outlier_detection (fraud.py lines 137-268)

The district totals vector feeds two flagging methods.  `np.std` is the
nonnegative square root of the population variance and is irrational in
general, so `sigma` is a parameter; the theorems constrain it by
`sigma ^ 2 = popVariance values`. -/

/-- Z-scores (fraud.py line 152): `(values - mean) / std if std > 0 else zeros`. -/
def zScores (values : List ℚ) (sigma : ℚ) : List ℚ :=
  if 0 < sigma then values.map (fun x => (x - npMean values) / sigma)
  else values.map (fun _ => 0)

/-- Z-score flags (fraud.py lines 154-155): `|z| > 2.5`. -/
def zOutliersMask (values : List ℚ) (sigma : ℚ) : List Bool :=
  (zScores values sigma).map (fun z => decide (5/2 < |z|))

/-- IQR flags (fraud.py lines 159-165): outside `[Q1 - 1.5*IQR, Q3 + 1.5*IQR]`. -/
def iqrOutliersMask (values : List ℚ) : List Bool :=
  let q1 := npPercentile values 25
  let q3 := npPercentile values 75
  let iqr := q3 - q1
  let lowerBound := q1 - 3/2 * iqr
  let upperBound := q3 + 3/2 * iqr
  values.map (fun x => decide (x < lowerBound) || decide (upperBound < x))

/-- Confirmed outliers (fraud.py line 169): flagged by BOTH methods,
    `combined_mask = z_outliers_mask & iqr_outliers_mask`. -/
def combinedMask (values : List ℚ) (sigma : ℚ) : List Bool :=
  List.zipWith (fun a b => a && b) (zOutliersMask values sigma) (iqrOutliersMask values)

/-- The `final_result` mapping of `outlier_detection` (fraud.py lines 251-257).
    Its keys are fixed independently of the data. -/
def outlierFinalResult (values : List ℚ) (sigma : ℚ) : List (String × ℚ) :=
  [("total_districts", (values.length : ℚ)),
   ("z_score_outliers", ((zOutliersMask values sigma).count true : ℚ)),
   ("iqr_outliers", ((iqrOutliersMask values).count true : ℚ)),
   ("confirmed_outliers", ((combinedMask values sigma).count true : ℚ)),
   ("outlier_rate_percent",
     pyRoundTo (((combinedMask values sigma).count true : ℚ) / (values.length : ℚ) * 100) 2)]

/-! ## Dispatcher: unified_analytics.get_fraud, before=False branch
(unified_analytics.py lines 133-150) -/

/-- KPI construction of the enriched fraud endpoint: plain dict subscripts
    `res["final_result"]["anomaly_count"]`, `["max_deviation"]`, `["threshold"]`
    (unified_analytics.py lines 144-146), each of which raises `KeyError` when
    the key is absent. -/
def get_fraud_after (final_result : List (String × ℚ)) :
    Except PyErr (List (String × ℚ)) := do
  let anomalyCount ← dictGet final_result "anomaly_count"
  let maxDeviation ← dictGet final_result "max_deviation"
  let thresholdValue ← dictGet final_result "threshold"
  pure [("Anomalies Detected", anomalyCount), ("Max Deviation", maxDeviation),
        ("Threshold", thresholdValue)]

/-! ## descriptive.univariate_analysis (descriptive.py lines 19-95) -/

/-- The `final_result` fields the univariate response would carry
    (descriptive.py lines 79-84); unobservable, see `univariate_analysis`. -/
structure UnivariateResult where
  mean : ℚ
  median : ℚ
  std_dev : ℚ
  skewness : ℚ

/-- descriptive.univariate_analysis.  The returned dict literal contains
    `"box_plot": null` (descriptive.py line 93); `null` is an unbound Python
    identifier (the module never defines or imports it), so evaluating the
    return expression raises `NameError` on every invocation, after the
    statistics have been computed but before any response is produced.  No
    earlier statement can fail: pandas mean/median/std/skew/kurt and
    `np.histogram` accept any `total_enrolments` column, including an empty
    one (yielding NaN, not an exception). -/
def univariate_analysis (values : List ℚ) : Except PyErr UnivariateResult :=
  .error (.nameError "null")

/-! ## operations.queue_theory_analysis (operations.py lines 20-141)

The quantities are functions of the daily-totals vector produced by
`df.groupby('date')['total_enrolments'].sum()`; the float literal `1.1`
(the 10% capacity buffer) is idealised as `11/10`. -/

/-- Arrival rate `lambda`: mean daily total (operations.py line 33). -/
def lambdaRate (dailyTotals : List ℚ) : ℚ := npMean dailyTotals

/-- Processing capacity `mu = max_daily * 1.1` (operations.py lines 36-37). -/
def processingCapacity (dailyTotals : List ℚ) : ℚ := pdMaxQ dailyTotals * (11/10)

/-- Utilization `rho = lambda / mu if mu > 0 else 0` (operations.py line 40). -/
def utilizationRho (dailyTotals : List ℚ) : ℚ :=
  if 0 < processingCapacity dailyTotals then
    lambdaRate dailyTotals / processingCapacity dailyTotals
  else 0

/-- Average wait factor `W = 1/(mu - lambda)` when `mu > lambda`; otherwise the
    code sets `W = float('inf')` and narrates "System overloaded"
    (operations.py lines 44-49), modelled as `none`. -/
def avgWaitFactor (dailyTotals : List ℚ) : Option ℚ :=
  if lambdaRate dailyTotals < processingCapacity dailyTotals then
    some (1 / (processingCapacity dailyTotals - lambdaRate dailyTotals))
  else none

/-! ## operations.load_balance_analysis (operations.py lines 144-263) -/

/-- Gini coefficient (operations.py lines 166-169): with the loads sorted
    ascending, `gini = 2 * sum(i * x_i) / (n * sum(x)) - (n + 1) / n` using
    1-based ranks `i`.  On an all-zero vector NumPy divides 0 by 0 and yields
    NaN; the total rational division below returns 0 there, and under both
    semantics the result fails to lie in `[0, 1]`. -/
def giniCoefficient (loads : List ℚ) : ℚ :=
  let s := List.insertionSort (fun a b : ℚ => a ≤ b) loads
  let n := s.length
  2 * (∑ i in Finset.range n, ((i : ℚ) + 1) * s.getD i 0) / ((n : ℚ) * s.sum) -
    ((n : ℚ) + 1) / (n : ℚ)

/-! ## operations.yield_analysis, per-state yields (operations.py lines 404-413)

After `fillna(0)`, `state_yield['demo_yield'] = (total_demo_updates /
total_enrolments * 100).round(2)` is an unguarded pandas division: a state with
zero enrolments yields inf (or NaN), not the default 0. -/

/-- Per-state demographic yield column entry (operations.py line 411). -/
def stateDemoYield (demoUpdates enrolments : ℚ) : Option ℚ :=
  (pdDiv demoUpdates enrolments).map (fun q => pyRoundTo (q * 100) 2)

/-! ## predictive.survival_analysis (predictive.py lines 489-632)

The Kaplan-Meier table is computed from the per-state `days_to_first_update`
durations (non-negative after the filter on line 512). -/

/-- Sorted unique event times, `np.sort(np.unique(durations))`
    (predictive.py line 519). -/
def uniqueTimes (durations : List ℕ) : List ℕ :=
  List.insertionSort (fun a b : ℕ => a ≤ b) durations.dedup

/-- Kaplan-Meier survival probabilities after each unique time
    (predictive.py lines 524-536): at each time `t`, `n_at_risk` counts
    durations `>= t`, `n_events` counts durations `== t`, and the running
    product is multiplied by `1 - n_events / n_at_risk`. -/
def survivalProbs (durations : List ℕ) : List ℚ :=
  ((uniqueTimes durations).foldl
    (fun (acc : List ℚ × ℚ) t =>
      let nAtRisk := (durations.filter (fun d => decide (t ≤ d))).length
      let nEvents := (durations.filter (fun d => decide (d = t))).length
      let hazard : ℚ := if 0 < nAtRisk then (nEvents : ℚ) / (nAtRisk : ℚ) else 0
      let s := acc.2 * (1 - hazard)
      (acc.1 ++ [s], s))
    ([], 1)).1

/-- Median survival time reported by `survival_analysis` (predictive.py lines
    539-543): `median_idx = np.argmax(survival_prob <= 0.5)` and
    `median_survival = unique_times[median_idx] if median_idx > 0 else
    unique_times[-1]`.  np.argmax returns 0 both when the first entry already
    satisfies `S(t) <= 0.5` and when no entry does, and the `median_idx > 0`
    guard sends both cases to the LAST unique time. -/
def medianSurvival (durations : List ℕ) : ℕ :=
  let ts := uniqueTimes durations
  let probs := survivalProbs durations
  if 0 < probs.length then
    let medianIdx := npArgmaxBool (probs.map (fun s => decide (s ≤ 1/2)))
    if 0 < medianIdx then ts.getD medianIdx 0 else ts.getLastD 0
  else 0

/-- Modelled from the spec: "median = first t where S(t) <= 0.5"
    (spec.md technique table, survival analysis row).  Stated from the spec's
    words, for comparison with `medianSurvival`. -/
def specMedianSurvival (durations : List ℕ) : Option ℕ :=
  (((uniqueTimes durations).zip (survivalProbs durations)).find?
    (fun p => decide (p.2 ≤ 1/2))).map (fun p => p.1)

/-! ## executive.py (lines 20-175)

The loaded enrolment table: `hasDate` records whether the optional `date`
column was present in the source CSVs.  `data_loader.preprocess_dataframe`
only parses the column when it exists, so a table can load without it, and
every later `groupby('date')` or `.dt.to_period` access then raises
`KeyError('date')`.  Each row carries the parsed day, its calendar month
bucket, and the derived `total_enrolments` value. -/

structure EnrolRow where
  day : ℕ
  month : ℕ
  total : ℚ
  deriving DecidableEq, Repr

structure EnrolTable where
  hasDate : Bool
  rows : List EnrolRow
  deriving DecidableEq, Repr

/-- `df.groupby('date')['total_enrolments'].sum()` (executive.py line 61):
    raises `KeyError('date')` when the column is absent. -/
def dailyTotalsOf (t : EnrolTable) : Except PyErr (List ℚ) :=
  if t.hasDate then
    .ok (((t.rows.map (fun r => r.day)).dedup).map (fun d =>
      ((t.rows.filter (fun r => decide (r.day = d))).map (fun r => r.total)).sum))
  else .error (.keyError "date")

/-- `data_loader.aggregate_by_month` (data_loader.py lines 176-193) applied to
    the table: month-bucket sums, raising `KeyError('date')` without the
    column. -/
def monthlyTotalsOf (t : EnrolTable) : Except PyErr (List ℚ) :=
  if t.hasDate then
    .ok (((t.rows.map (fun r => r.month)).dedup).map (fun m =>
      ((t.rows.filter (fun r => decide (r.month = m))).map (fun r => r.total)).sum))
  else .error (.keyError "date")

/-- Fraud-risk indicator: level, decision text, and risk factors. -/
structure FraudRisk where
  level : String
  decision : String
  factors : List String
  deriving DecidableEq, Repr

/-- executive.calculate_fraud_risk (executive.py lines 20-53): a quick Benford
    check on the first digits of positive totals, with the in-band default
    ("LOW", "Insufficient Data") when no first digits exist.  The chi-square
    here compares frequencies (not counts), and `p = 1 - chi/20` is the
    simplified p-value of line 44; `eF` is the irrational expected-frequency
    table as in `benford_law_analysis`.  No `date` access occurs, so this
    sub-technique never raises on a loaded table. -/
def calculate_fraud_risk (eF : ℕ → ℚ) (t : EnrolTable) : FraudRisk :=
  let values := (t.rows.map (fun r => r.total)).filter (fun v => decide (0 < v))
  let fds := (values.filter (fun v => decide (1 ≤ v))).map
    (fun v => firstDigit (pyInt v).natAbs)
  if 0 < fds.length then
    let chi := ∑ d in Finset.Icc 1 9,
      (if 0 < eF d then ((fds.count d : ℚ) / (fds.length : ℚ) - eF d) ^ 2 / eF d else 0)
    let p := 1 - chi / 20
    if p < 1/100 then ⟨"HIGH", "Benford Violation Detected", ["Potential Data Anomaly"]⟩
    else if p < 5/100 then ⟨"MEDIUM", "Moderate Deviation", ["Review Data Quality"]⟩
    else ⟨"LOW", "Data Integrity Confirmed", []⟩
  else ⟨"LOW", "Insufficient Data", []⟩

/-- Python `f"{int(x)}%"`. -/
def pctString (q : ℚ) : String := toString (pyInt q) ++ "%"

/-- executive.calculate_operational_health (executive.py lines 56-76): health
    percentage and status from daily throughput utilization, with the in-band
    default ("75%", "Processing Data") for an empty daily series.  The
    decorative glyphs prefixed to the status strings are dropped. -/
def calculate_operational_health (t : EnrolTable) : Except PyErr (String × String) := do
  let daily ← dailyTotalsOf t
  if 0 < daily.length then
    let maxDaily := pdMaxQ daily
    let meanDaily := npMean daily
    let utilization := if 0 < maxDaily then meanDaily / (maxDaily * (11/10)) else 0
    if 9/10 < utilization then
      pure (pctString (100 - utilization * 10), "High Capacity Usage")
    else if 7/10 < utilization then
      pure (pctString (100 - utilization * 5), "Moderate Load")
    else
      pure (pctString (100 - utilization * 2), "Healthy")
  else
    pure ("75%", "Processing Data")

/-- Ordinary-least-squares slope of `ys` against `0, 1, ..., n-1`, the
    `LinearRegression().fit` coefficient used by executive.calculate_forecast_growth. -/
def olsSlope (ys : List ℚ) : ℚ :=
  let n := ys.length
  let xbar : ℚ := ((n : ℚ) - 1) / 2
  let ybar := npMean ys
  (∑ i in Finset.range n, ((i : ℚ) - xbar) * (ys.getD i 0 - ybar)) /
    (∑ i in Finset.range n, ((i : ℚ) - xbar) ^ 2)

/-- executive.calculate_forecast_growth (executive.py lines 79-107): growth
    category from the monthly linear-trend slope, with the in-band default
    "Stable" for fewer than 2 months.  The numeric interpolation of the
    returned f-string is dropped; only the category label is kept. -/
def calculate_forecast_growth (t : EnrolTable) : Except PyErr String := do
  let monthly ← monthlyTotalsOf t
  if 2 ≤ monthly.length then
    let slope := olsSlope monthly
    let avg := npMean monthly
    let growthPct := if 0 < avg then slope / avg * 100 else 0
    if 5 < growthPct then pure "Strong"
    else if 0 < growthPct then pure "Moderate"
    else pure "Declining"
  else
    pure "Stable"

/-- The executive summary's four indicators (executive.py lines 138-168),
    without the presentation strings. -/
structure ExecutiveSummary where
  total_enrolments : ℚ
  fraud_risk : FraudRisk
  ops_health : String × String
  growth : String
  yield_rate : ℚ
  deriving DecidableEq, Repr

/-- executive.get_executive_summary (executive.py lines 110-175): the
    sub-techniques are invoked directly, with no try/except anywhere in the
    module, so an exception in any of them propagates out of the summary. -/
def get_executive_summary (eF : ℕ → ℚ) (t : EnrolTable)
    (demoTotals bioTotals : List ℚ) : Except PyErr ExecutiveSummary := do
  let totalEnrol := (t.rows.map (fun r => r.total)).sum
  let totalDemo := demoTotals.sum
  let totalBio := bioTotals.sum
  let fraud := calculate_fraud_risk eF t
  let ops ← calculate_operational_health t
  let growth ← calculate_forecast_growth t
  let yieldRate := if 0 < totalEnrol then (totalDemo + totalBio) / (2 * totalEnrol) * 100 else 0
  pure { total_enrolments := totalEnrol, fraud_risk := fraud, ops_health := ops,
         growth := growth, yield_rate := yieldRate }

/-! ## data_loader cache (data_loader.py lines 75-127) and technique invocation

`functools.lru_cache(maxsize=1)` on the zero-argument loaders is an optional
memo cell: the first call stores the loaded table, every later call returns
the stored table unchanged.  A technique invocation loads through the cache
and applies its pure body; techniques whose algorithm consumes randomness do
so only through a fixed seed, e.g. `KMeans(n_clusters=3, random_state=42,
n_init=10)` in geographic.cluster_analysis (geographic.py line 58), so the
technique body is a pure function of the cached table. -/

/-- lru_cache(maxsize=1) semantics. -/
def cachedLoad (source : α) : Option α → α × Option α
  | some t => (t, some t)
  | none => (source, some source)

/-- One technique invocation through the cached loader. -/
def invokeTechnique (tech : α → β) (source : α) (c : Option α) : β × Option α :=
  let p := cachedLoad source c
  (tech p.1, p.2)

/-- The fixed k-means seed of geographic.cluster_analysis (geographic.py line 58). -/
def kmeansSeed : ℕ := 42

/-- geographic.cluster_analysis as a function of an arbitrary deterministic
    k-means implementation (sklearn's `fit_predict` is a deterministic function
    of the data once `random_state` is fixed): feature extraction, k-means with
    k = 3 at the fixed seed, then summarisation of the labels. -/
def clusterTechnique (kmeansImpl : ℕ → ℕ → List (List ℚ) → List ℕ)
    (features : α → List (List ℚ)) (summarize : List ℕ → β) : α → β :=
  fun t => summarize (kmeansImpl kmeansSeed 3 (features t))

/-! ## Theorems -/

/-- C1: the enriched fraud dispatcher endpoint never completes: for every
    district-totals vector, reshaping the `outlier_detection` result raises
    `KeyError('anomaly_count')`, because the technique's `final_result` keys
    are `total_districts`, `z_score_outliers`, `iqr_outliers`,
    `confirmed_outliers`, `outlier_rate_percent` and the dispatcher reads the
    absent optional keys with plain dict subscripts instead of tolerating
    their absence. -/
theorem get_fraud_after_keyerror (values : List ℚ) (sigma : ℚ) :
    get_fraud_after (outlierFinalResult values sigma) =
      .error (.keyError "anomaly_count") := rfl

/-- C2: the univariate distribution operation never returns an
    `AnalysisResult` at all: for every loaded enrolment table it raises
    `NameError` on the unbound identifier `null` in the returned dict literal
    (descriptive.py line 93), so no field is ever populated. -/
theorem univariate_analysis_nameerror (values : List ℚ) :
    univariate_analysis values = .error (.nameError "null") := rfl

/-- C3: zero denominators are not short-circuited to defaults in the two cited
    cases: Benford's Law on an input with no positive values raises
    `ZeroDivisionError` (the `observed_freq` division of fraud.py line 39 has
    no guard), and the per-state yield for a state with zero enrolments is a
    non-finite pandas value (`none`), not the default 0. -/
theorem benford_yield_zero_denominator (eF : ℕ → ℚ) :
    benford_law_analysis eF [0] = .error .zeroDivisionError ∧
    stateDemoYield 7 0 = none := ⟨rfl, rfl⟩

/-- C5: the reported median survival time is NOT the first time with
    `S(t) <= 0.5` when that time is the earliest event time: on durations
    `[1, 1, 2]` the survival curve is `S(1) = 1/3, S(2) = 0`, the first time
    with `S(t) <= 0.5` is 1, but `np.argmax` returns index 0 and the
    `median_idx > 0` sentinel guard makes the code report the LAST unique time
    2 instead. -/
theorem median_survival_argmax_bug :
    medianSurvival [1, 1, 2] = 2 ∧ specMedianSurvival [1, 1, 2] = some 1 := by
  with_unfolding_all decide

/-- C4 counterexample: on an enrolment table loaded without the optional
    `date` column, the operational-health sub-technique raises
    `KeyError('date')`, and `get_executive_summary` does not degrade that
    indicator to a default: the whole summary raises the same error. -/
theorem executive_summary_counterexample :
    calculate_operational_health ⟨false, [⟨0, 0, 100⟩]⟩ = .error (.keyError "date") ∧
    get_executive_summary (fun _ => 0) ⟨false, [⟨0, 0, 100⟩]⟩ [] [] =
      .error (.keyError "date") := ⟨rfl, rfl⟩

/-- C7 counterexample: the frequencies the response reports are rounded to 4
    decimal places, and on the all-positive integer series `[1, 2, 3]` their
    sum is 0.9999, off from 1 by 10⁻⁴, far outside the claimed 10⁻⁹
    tolerance. -/
theorem benford_reported_sum_counterexample :
    ∃ r, benford_law_analysis (fun _ => 0) [1, 2, 3] = .ok r ∧
      ¬ |(∑ d in Finset.Icc 1 9, r.observed_frequencies d) - 1| ≤ 1 / 1000000000 := by
  refine ⟨{ observed_frequencies := fun d => pyRoundTo (observedFreq [1, 2, 3] d) 4,
            sample_size := (firstDigits [1, 2, 3]).length,
            chi_square := benfordChiSquare [1, 2, 3] (fun _ => 0),
            chi_square_reported := pyRoundTo (benfordChiSquare [1, 2, 3] (fun _ => 0)) 4 },
          ?_, ?_⟩
  · with_unfolding_all rfl
  · with_unfolding_all decide

/-- C8 counterexample: on the non-negative all-zero load vector `[0, 0]` the
    Gini computation divides 0 by 0 (NumPy yields NaN there; the total rational
    division of the embedding yields 0, making the expression -3/2), and under
    either semantics the result does not lie in `[0, 1]`. -/
theorem gini_all_zero_counterexample :
    ¬ (0 ≤ giniCoefficient [0, 0] ∧ giniCoefficient [0, 0] ≤ 1) := by
  with_unfolding_all decide

/-- C10 counterexample: on the non-empty daily-totals vector `[0]` (a day with
    zero enrolments) the maximum is 0, so `mu = lambda = 0`, the
    `processing_capacity > lambda_rate` test fails, and the code takes the
    "System overloaded" branch with an infinite wait factor: the branch is
    reachable and `W` is not finite. -/
theorem queue_overload_counterexample :
    avgWaitFactor [0] = none ∧ utilizationRho [0] = 0 := by
  with_unfolding_all decide

/-- Helper: `getD` over a pointwise `&&` of two boolean lists; the default
    `false` is absorbing, so the identity holds at every index. -/
theorem zipWith_and_getD : ∀ (a b : List Bool) (i : ℕ),
    (List.zipWith (fun x y => x && y) a b).getD i false =
      (a.getD i false && b.getD i false)
  | [], _, _ => by simp
  | _ :: _, [], _ => by simp
  | _ :: _, _ :: _, 0 => rfl
  | _ :: as, _ :: bs, i + 1 => zipWith_and_getD as bs i

/-- C6: for every district-totals vector (and the nonnegative square root
    `sigma` of its population variance, the value `np.std` computes), every
    confirmed outlier is flagged by BOTH the Z-score method and the IQR
    method: the combined mask is the intersection of the two flag sets,
    never their union. -/
theorem confirmed_outliers_subset (values : List ℚ) (sigma : ℚ)
    (hs : 0 ≤ sigma ∧ sigma ^ 2 = popVariance values) (i : ℕ)
    (hc : (combinedMask values sigma).getD i false = true) :
    (zOutliersMask values sigma).getD i false = true ∧
    (iqrOutliersMask values).getD i false = true := by
  have h := zipWith_and_getD (zOutliersMask values sigma) (iqrOutliersMask values) i
  rw [combinedMask, h] at hc
  exact And.intro (Bool.and_elim_left hc) (Bool.and_elim_right hc)

/-- District totals with nine quiet districts and one spike: the spike has
    z-score 3 and lies above the IQR upper bound, so it is confirmed. -/
def districtTotalsExample : List ℚ := [0, 0, 0, 0, 0, 0, 0, 0, 0, 1000]

/-- Witness for C6 at `districtTotalsExample` with `sigma = 300`
    (300² = 90000 is the population variance): index 9 is confirmed, and the
    theorem places it in both flag sets. -/
theorem confirmed_outliers_subset_witness :
    ((0 ≤ (300 : ℚ) ∧ (300 : ℚ) ^ 2 = popVariance districtTotalsExample) ∧
      (combinedMask districtTotalsExample 300).getD 9 false = true) ∧
    ((zOutliersMask districtTotalsExample 300).getD 9 false = true ∧
      (iqrOutliersMask districtTotalsExample).getD 9 false = true) := by
  have hvar : (0 ≤ (300 : ℚ) ∧ (300 : ℚ) ^ 2 = popVariance districtTotalsExample) := by
    constructor
    · norm_num
    · simp [popVariance, npMean, districtTotalsExample]
      norm_num
  have hcomb : (combinedMask districtTotalsExample 300).getD 9 false = true := by
    simp [combinedMask, zOutliersMask, iqrOutliersMask, zScores, npPercentile, npMean,
      districtTotalsExample]
    norm_num [Int.fract, Int.floor_eq_iff, show Int.toNat 2 = 2 from rfl,
      show Int.toNat 6 = 6 from rfl, List.getElem_cons_succ, List.getElem_cons_zero]
  exact ⟨⟨hvar, hcomb⟩,
    confirmed_outliers_subset districtTotalsExample 300 hvar 9 hcomb⟩

/-- C9: with the dataset cache already warm (the memo cell holds table `t`),
    two successive invocations of the same technique observe the same cached
    table and return identical results, leaving the cache unchanged; in
    particular this holds for `cluster_analysis`, whose k-means runs at the
    fixed seed 42 and is therefore a pure function of the cached table, for
    every deterministic k-means implementation. -/
theorem technique_two_runs_identical {α β γ : Type} (tech : α → β)
    (kmeansImpl : ℕ → ℕ → List (List ℚ) → List ℕ) (features : α → List (List ℚ))
    (summarize : List ℕ → γ) (source t : α) :
    ((invokeTechnique tech source (some t)).1 =
        (invokeTechnique tech source (invokeTechnique tech source (some t)).2).1 ∧
      (invokeTechnique tech source (invokeTechnique tech source (some t)).2).2 = some t) ∧
    (invokeTechnique (clusterTechnique kmeansImpl features summarize) source (some t)).1 =
      (invokeTechnique (clusterTechnique kmeansImpl features summarize) source
        (invokeTechnique (clusterTechnique kmeansImpl features summarize) source
          (some t)).2).1 :=
  ⟨⟨rfl, rfl⟩, rfl⟩

/-- C4 (amended): get_executive_summary catches no exceptions, so a
    sub-technique that raises (for example the operational-health groupby on a
    table loaded without the optional date column) fails the whole summary
    with the same error; only in-band insufficient-data cases degrade to
    defaults, e.g. on an empty enrolment table the summary completes with the
    default indicators ("LOW"/"Insufficient Data" fraud risk,
    "75%"/"Processing Data" health, "Stable" growth, yield 0). -/
theorem executive_summary_amended (eF : ℕ → ℚ) (t : EnrolTable)
    (demoTotals bioTotals : List ℚ) (e : PyErr)
    (hops : calculate_operational_health t = .error e) :
    get_executive_summary eF t demoTotals bioTotals = .error e ∧
    get_executive_summary eF ⟨true, []⟩ demoTotals bioTotals =
      .ok { total_enrolments := 0, fraud_risk := ⟨"LOW", "Insufficient Data", []⟩,
            ops_health := ("75%", "Processing Data"), growth := "Stable",
            yield_rate := 0 } := by
  constructor
  · unfold get_executive_summary
    rw [hops]
    rfl
  · rfl

/-- Witness for C4 at the concrete table with one row and no date column:
    the operational-health sub-technique raises KeyError('date'), the summary
    propagates it, and the empty table produces the default indicators. -/
theorem executive_summary_amended_witness :
    get_executive_summary (fun _ => 0) ⟨false, [⟨0, 0, 100⟩]⟩ [] [] =
        .error (.keyError "date") ∧
    get_executive_summary (fun _ => 0) ⟨true, []⟩ [] [] =
      .ok { total_enrolments := 0, fraud_risk := ⟨"LOW", "Insufficient Data", []⟩,
            ops_health := ("75%", "Processing Data"), growth := "Stable",
            yield_rate := 0 } :=
  executive_summary_amended (fun _ => 0) ⟨false, [⟨0, 0, 100⟩]⟩ [] []
    (.keyError "date") rfl

/-- Rounding moves a rational by at most half a unit. -/
theorem abs_pyRound_sub_le (q : ℚ) : |(pyRound q : ℚ) - q| ≤ 1 / 2 := by
  have h0 : (⌊q⌋ : ℚ) ≤ q := Int.floor_le q
  have h1 : q < (⌊q⌋ : ℚ) + 1 := Int.lt_floor_add_one q
  rw [pyRound]
  split_ifs with ha hb hc <;> rw [abs_le] <;> push_cast <;> constructor <;> linarith

/-- Rounding to `d` decimal places moves a rational by at most half an ulp. -/
theorem abs_pyRoundTo_sub_le (q : ℚ) (d : ℕ) :
    |pyRoundTo q d - q| ≤ 1 / (2 * 10 ^ d) := by
  have h10 : (0 : ℚ) < 10 ^ d := by positivity
  have hb := abs_pyRound_sub_le (q * 10 ^ d)
  have key : pyRoundTo q d - q = ((pyRound (q * 10 ^ d) : ℚ) - q * 10 ^ d) / 10 ^ d := by
    rw [pyRoundTo]
    field_simp
    ring
  rw [key, abs_div, abs_of_pos h10]
  rw [div_le_div_iff h10 (by positivity : (0 : ℚ) < 2 * 10 ^ d)]
  nlinarith [hb, h10]

/-- Rounding a non-negative rational stays non-negative. -/
theorem pyRoundTo_nonneg (q : ℚ) (d : ℕ) (h : 0 ≤ q) : 0 ≤ pyRoundTo q d := by
  have h10 : (0 : ℚ) < 10 ^ d := by positivity
  have hf : (0 : ℤ) ≤ ⌊q * 10 ^ d⌋ := Int.floor_nonneg.mpr (by positivity)
  have hr : (0 : ℤ) ≤ pyRound (q * 10 ^ d) := by
    rw [pyRound]
    split_ifs <;> omega
  rw [pyRoundTo]
  exact div_nonneg (by exact_mod_cast hr) (le_of_lt h10)

/-- The leading digit of a positive natural number lies in 1..9. -/
theorem firstDigit_range : ∀ n : ℕ, 1 ≤ n → 1 ≤ firstDigit n ∧ firstDigit n ≤ 9 := by
  intro n
  induction n using Nat.strong_induction_on with
  | _ n ih =>
    intro h
    rw [firstDigit]
    split
    · next h10 => exact ⟨h, by omega⟩
    · next h10 => exact ih (n / 10) (by omega) (by omega)

/-- On a series of positive integers every value passes both value filters, the
    extracted digit of each value lies in 1..9, and the final digit filter keeps
    everything: the extracted digit list is exactly the elementwise map. -/
theorem firstDigits_of_posInt (values : List ℚ)
    (hpos : ∀ v ∈ values, ∃ n : ℕ, 1 ≤ n ∧ v = (n : ℚ)) :
    firstDigits values = values.map (fun v => firstDigit (pyInt v).natAbs) ∧
    ∀ d ∈ firstDigits values, 1 ≤ d ∧ d ≤ 9 := by
  have hdig : ∀ d ∈ values.map (fun v => firstDigit (pyInt v).natAbs),
      1 ≤ d ∧ d ≤ 9 := by
    intro d hd
    rw [List.mem_map] at hd
    obtain ⟨v, hv, rfl⟩ := hd
    obtain ⟨n, hn1, rfl⟩ := hpos v hv
    have hpi : pyInt (n : ℚ) = (n : ℤ) := by
      rw [pyInt, if_pos (by positivity)]
      exact Int.floor_natCast n
    rw [hpi, Int.natAbs_ofNat]
    exact firstDigit_range n hn1
  have h1 : values.filter (fun v => decide (0 < v)) = values := by
    rw [List.filter_eq_self]
    intro v hv
    obtain ⟨n, hn1, rfl⟩ := hpos v hv
    simp only [decide_eq_true_eq]
    exact_mod_cast Nat.lt_of_lt_of_le Nat.zero_lt_one hn1
  have h2 : values.filter (fun v => decide (1 ≤ v)) = values := by
    rw [List.filter_eq_self]
    intro v hv
    obtain ⟨n, hn1, rfl⟩ := hpos v hv
    simp only [decide_eq_true_eq]
    exact_mod_cast hn1
  have h3 : firstDigits values =
      (values.map (fun v => firstDigit (pyInt v).natAbs)).filter
        (fun d => decide (1 ≤ d ∧ d ≤ 9)) := by
    rw [firstDigits, h1, h2]
  have h4 : firstDigits values = values.map (fun v => firstDigit (pyInt v).natAbs) := by
    rw [h3, List.filter_eq_self]
    intro d hd
    simp only [decide_eq_true_eq]
    exact hdig d hd
  exact ⟨h4, fun d hd => hdig d (h4 ▸ hd)⟩

/-- C7 (amended): for every non-empty all-positive integer series the Benford
    analysis succeeds, the unrounded observed first-digit frequencies over
    digits 1..9 sum to exactly 1, the REPORTED frequencies (rounded to 4
    decimal places) sum to 1 within 4.5e-4 (9 digits times half an ulp; the
    claimed 1e-9 tolerance holds only for the unrounded sum), and the computed
    chi-square statistic and its rounded reported form are non-negative, for
    every expected-frequency table `eF`. -/
theorem benford_frequencies_amended (values : List ℚ) (eF : ℕ → ℚ)
    (hpos : ∀ v ∈ values, ∃ n : ℕ, 1 ≤ n ∧ v = (n : ℚ)) (hne : values ≠ []) :
    ∃ r, benford_law_analysis eF values = .ok r ∧
      (∑ d in Finset.Icc 1 9, observedFreq values d) = 1 ∧
      |(∑ d in Finset.Icc 1 9, r.observed_frequencies d) - 1| ≤ 45 / 100000 ∧
      0 ≤ r.chi_square ∧ 0 ≤ r.chi_square_reported := by
  obtain ⟨hmap, hdig⟩ := firstDigits_of_posInt values hpos
  have hlen : (firstDigits values).length = values.length := by rw [hmap]; simp
  have hlen0 : (firstDigits values).length ≠ 0 := by
    rw [hlen]
    exact fun h => hne (List.length_eq_zero.mp h)
  have hlenQ : ((firstDigits values).length : ℚ) ≠ 0 := by exact_mod_cast hlen0
  -- the digit counts over 1..9 exhaust the digit list
  have hcount : (∑ d in Finset.Icc 1 9, (firstDigits values).count d) =
      (firstDigits values).length := by
    classical
    have hsub : (firstDigits values).toFinset ⊆ Finset.Icc 1 9 := by
      intro d hd
      rw [List.mem_toFinset] at hd
      rw [Finset.mem_Icc]
      exact ⟨(hdig d hd).1, (hdig d hd).2⟩
    have hzero : ∀ d ∈ Finset.Icc 1 9, d ∉ (firstDigits values).toFinset →
        (firstDigits values).count d = 0 := by
      intro d _ hd
      rw [List.mem_toFinset] at hd
      exact List.count_eq_zero.mpr hd
    calc (∑ d in Finset.Icc 1 9, (firstDigits values).count d)
        = ∑ d in (firstDigits values).toFinset, (firstDigits values).count d :=
          (Finset.sum_subset hsub hzero).symm
      _ = (firstDigits values).length := by
          simpa using Multiset.toFinset_sum_count_eq ((firstDigits values) : Multiset ℕ)
  have hsum1 : (∑ d in Finset.Icc 1 9, observedFreq values d) = 1 := by
    unfold observedFreq
    rw [← Finset.sum_div]
    rw [show (∑ d in Finset.Icc 1 9, (((firstDigits values).count d : ℚ))) =
        (((∑ d in Finset.Icc 1 9, (firstDigits values).count d) : ℕ) : ℚ) by
      push_cast
      rfl]
    rw [hcount]
    exact div_self hlenQ
  have hchi : 0 ≤ benfordChiSquare values eF := by
    unfold benfordChiSquare
    apply Finset.sum_nonneg
    intro d _
    split_ifs with h
    · positivity
    · exact le_refl 0
  refine ⟨{ observed_frequencies := fun d => pyRoundTo (observedFreq values d) 4,
            sample_size := (firstDigits values).length,
            chi_square := benfordChiSquare values eF,
            chi_square_reported := pyRoundTo (benfordChiSquare values eF) 4 },
          ?_, hsum1, ?_, hchi, pyRoundTo_nonneg _ _ hchi⟩
  · rw [benford_law_analysis, if_neg hlen0]
  · have hdiff : ∀ d ∈ Finset.Icc 1 9,
        |pyRoundTo (observedFreq values d) 4 - observedFreq values d| ≤ 1 / 20000 := by
      intro d _
      have hb := abs_pyRoundTo_sub_le (observedFreq values d) 4
      norm_num at hb
      exact hb
    have hsplit : (∑ d in Finset.Icc 1 9, pyRoundTo (observedFreq values d) 4) - 1 =
        ∑ d in Finset.Icc 1 9,
          (pyRoundTo (observedFreq values d) 4 - observedFreq values d) := by
      rw [Finset.sum_sub_distrib, hsum1]
    rw [hsplit]
    calc |∑ d in Finset.Icc 1 9,
            (pyRoundTo (observedFreq values d) 4 - observedFreq values d)|
        ≤ ∑ d in Finset.Icc 1 9,
            |pyRoundTo (observedFreq values d) 4 - observedFreq values d| :=
          Finset.abs_sum_le_sum_abs _ _
      _ ≤ ∑ _d in Finset.Icc 1 9, (1 / 20000 : ℚ) := Finset.sum_le_sum hdiff
      _ = 45 / 100000 := by
          rw [Finset.sum_const, Nat.card_Icc]
          norm_num

/-- Witness for C7 at the positive integer series `[5]` and an arbitrary
    concrete expected-frequency table. -/
theorem benford_frequencies_amended_witness :
    ∃ r, benford_law_analysis (fun _ => 0) [(5 : ℚ)] = .ok r ∧
      (∑ d in Finset.Icc 1 9, observedFreq [(5 : ℚ)] d) = 1 ∧
      |(∑ d in Finset.Icc 1 9, r.observed_frequencies d) - 1| ≤ 45 / 100000 ∧
      0 ≤ r.chi_square ∧ 0 ≤ r.chi_square_reported :=
  benford_frequencies_amended [(5 : ℚ)] (fun _ => 0)
    (by
      intro v hv
      rw [List.mem_singleton] at hv
      exact ⟨5, by norm_num, by rw [hv]; norm_num⟩)
    (by simp)

/-- Indexed sum of `getD` over the whole range is the list sum. -/
theorem sum_getD_range : ∀ l : List ℚ,
    (∑ i in Finset.range l.length, l.getD i 0) = l.sum
  | [] => by simp
  | x :: xs => by
    rw [List.length_cons, Finset.sum_range_succ']
    simp only [List.getD_cons_succ, List.getD_cons_zero]
    rw [sum_getD_range xs, List.sum_cons, add_comm]

/-- Gauss sum of the 1-based ranks. -/
theorem sum_range_rank (n : ℕ) :
    (∑ i in Finset.range n, ((i : ℚ) + 1)) = n * (n + 1) / 2 := by
  induction n with
  | zero => simp
  | succ k ih =>
    rw [Finset.sum_range_succ, ih]
    push_cast
    ring

/-- Entries of a sorted list are monotone in the index (through `getD`). -/
theorem sorted_getD_mono (s : List ℚ) (hsort : List.Sorted (fun a b : ℚ => a ≤ b) s)
    (i j : ℕ) (hij : i ≤ j) (hj : j < s.length) : s.getD i 0 ≤ s.getD j 0 := by
  rw [List.getD_eq_get _ _ (lt_of_le_of_lt hij hj), List.getD_eq_get _ _ hj]
  exact hsort.rel_get_of_le hij

/-- C8 (amended): the Gini coefficient of load-balance analysis lies in
    `[0, 1]` for every non-negative load vector with positive total (on an
    all-zero vector the computation degenerates to 0/0, NaN in NumPy), and a
    perfectly equal positive distribution has Gini exactly 0. -/
theorem gini_range_and_equal (loads : List ℚ) (c : ℚ) (n : ℕ)
    (hnn : ∀ x ∈ loads, 0 ≤ x) (hsum : 0 < loads.sum) (hc : 0 < c) (hn : 0 < n) :
    (0 ≤ giniCoefficient loads ∧ giniCoefficient loads ≤ 1) ∧
    giniCoefficient (List.replicate n c) = 0 := by
  constructor
  · -- range part, through the sorted copy
    simp only [giniCoefficient]
    set s := List.insertionSort (fun a b : ℚ => a ≤ b) loads with hs
    have hperm : s.Perm loads := List.perm_insertionSort _ loads
    have hsort : List.Sorted (fun a b : ℚ => a ≤ b) s :=
      List.sorted_insertionSort _ loads
    have hT : s.sum = loads.sum := hperm.sum_eq
    have hTpos : 0 < s.sum := hT ▸ hsum
    have hsnn : ∀ x ∈ s, 0 ≤ x := fun x hx => hnn x (hperm.mem_iff.mp hx)
    have hlen : 0 < s.length := by
      rcases hempty : s with _ | ⟨y, ys⟩
      · rw [hempty] at hTpos
        simp at hTpos
      · simp
    have hlenQ : (0 : ℚ) < (s.length : ℚ) := by exact_mod_cast hlen
    have hgetDnn : ∀ i, 0 ≤ s.getD i 0 := by
      intro i
      by_cases hi : i < s.length
      · rw [List.getD_eq_getElem _ _ hi]
        exact hsnn _ (List.getElem_mem hi)
      · rw [List.getD_eq_default _ _ (le_of_not_lt hi)]
    -- Chebyshev's sum inequality for the sorted entries against the ranks
    have hmono : MonovaryOn (fun i => s.getD i 0) (fun i : ℕ => ((i : ℚ) + 1))
        (Finset.range s.length) := by
      intro i _ j hj hlt
      have hij : i ≤ j := by
        by_contra hcon
        have : (j : ℚ) + 1 ≤ (i : ℚ) + 1 := by
          have : (j : ℚ) ≤ (i : ℚ) := by exact_mod_cast Nat.le_of_lt (Nat.lt_of_not_le hcon)
          linarith
        exact absurd hlt (not_lt.mpr this)
      exact sorted_getD_mono s hsort i j hij (Finset.mem_range.mp hj)
    have hcheb := hmono.sum_mul_sum_le_card_mul_sum
    rw [Finset.card_range, sum_getD_range, sum_range_rank] at hcheb
    -- upper bound on the rank-weighted sum
    have hA_le : (∑ i in Finset.range s.length, ((i : ℚ) + 1) * s.getD i 0) ≤
        (s.length : ℚ) * s.sum := by
      calc (∑ i in Finset.range s.length, ((i : ℚ) + 1) * s.getD i 0)
          ≤ ∑ i in Finset.range s.length, (s.length : ℚ) * s.getD i 0 := by
            apply Finset.sum_le_sum
            intro i hi
            apply mul_le_mul_of_nonneg_right _ (hgetDnn i)
            have : i + 1 ≤ s.length := Finset.mem_range.mp hi
            exact_mod_cast this
        _ = (s.length : ℚ) * s.sum := by
            rw [← Finset.mul_sum, sum_getD_range]
    have hAcomm : (∑ i in Finset.range s.length, s.getD i 0 * ((i : ℚ) + 1)) =
        ∑ i in Finset.range s.length, ((i : ℚ) + 1) * s.getD i 0 :=
      Finset.sum_congr rfl (fun i _ => mul_comm _ _)
    rw [hAcomm] at hcheb
    constructor
    · -- 0 ≤ gini
      rw [sub_nonneg, div_le_div_iff hlenQ (by positivity)]
      nlinarith [hcheb]
    · -- gini ≤ 1
      have key2 : 2 * (∑ i in Finset.range s.length, ((i : ℚ) + 1) * s.getD i 0) /
          ((s.length : ℚ) * s.sum) ≤ 2 := by
        rw [div_le_iff (by positivity)]
        nlinarith [hA_le]
      have key3 : (1 : ℚ) ≤ ((s.length : ℚ) + 1) / (s.length : ℚ) := by
        rw [le_div_iff hlenQ]
        linarith
      linarith
  · -- a perfectly equal positive distribution has Gini 0
    have hrep : List.insertionSort (fun a b : ℚ => a ≤ b) (List.replicate n c) =
        List.replicate n c := by
      rw [List.eq_replicate_iff]
      constructor
      · rw [List.length_insertionSort, List.length_replicate]
      · intro b hb
        exact List.eq_of_mem_replicate
          ((List.perm_insertionSort _ (List.replicate n c)).mem_iff.mp hb)
    have hnQ : ((n : ℚ)) ≠ 0 := Nat.cast_ne_zero.mpr hn.ne'
    simp only [giniCoefficient]
    rw [hrep, List.length_replicate]
    have hterm : ∀ i ∈ Finset.range n,
        ((i : ℚ) + 1) * (List.replicate n c).getD i 0 = ((i : ℚ) + 1) * c := by
      intro i hi
      rw [List.getD_eq_getElem _ _ (by simpa using Finset.mem_range.mp hi)]
      simp
    rw [Finset.sum_congr rfl hterm, ← Finset.sum_mul, sum_range_rank,
      List.sum_replicate, nsmul_eq_mul]
    field_simp
    ring

/-- Witness for C8 at the concrete loads `[1, 2]` (non-negative, positive
    total) and the equal distribution with one state of load 1. -/
theorem gini_range_and_equal_witness :
    (0 ≤ giniCoefficient [1, 2] ∧ giniCoefficient [1, 2] ≤ 1) ∧
    giniCoefficient (List.replicate 1 (1 : ℚ)) = 0 :=
  gini_range_and_equal [1, 2] 1 1
    (by
      intro x hx
      simp only [List.mem_cons, List.not_mem_nil, or_false] at hx
      rcases hx with rfl | rfl <;> norm_num)
    (by norm_num [List.sum_cons, List.sum_nil])
    (by norm_num) (by norm_num)

/-- Every member of a list is at most its pandas maximum. -/
theorem le_pdMaxQ (l : List ℚ) (x : ℚ) (hx : x ∈ l) : x ≤ pdMaxQ l := by
  rcases hm : l.maximum with _ | m
  · exact absurd (List.maximum_eq_none.mp hm ▸ hx) (List.not_mem_nil x)
  · have := List.le_maximum_of_mem hx hm
    rw [pdMaxQ, hm]
    exact_mod_cast this

/-- C10 (amended): for every non-empty daily-totals vector whose maximum is
    positive (the claim fails when every daily total is zero, where
    `mu = lambda = 0`): the mean never exceeds the maximum, utilization is at
    most 10/11 = 1/1.1, `mu > lambda` holds, the overloaded branch is not
    taken, and the reported wait factor is the finite `1/(mu - lambda)`. -/
theorem queue_wait_finite (dailyTotals : List ℚ) (hne : dailyTotals ≠ [])
    (hmax : 0 < pdMaxQ dailyTotals) :
    lambdaRate dailyTotals ≤ pdMaxQ dailyTotals ∧
    utilizationRho dailyTotals ≤ 10 / 11 ∧
    lambdaRate dailyTotals < processingCapacity dailyTotals ∧
    avgWaitFactor dailyTotals =
      some (1 / (processingCapacity dailyTotals - lambdaRate dailyTotals)) := by
  have hlen : 0 < dailyTotals.length := List.length_pos.mpr hne
  have hlenQ : (0 : ℚ) < (dailyTotals.length : ℚ) := by exact_mod_cast hlen
  have hmean_le : lambdaRate dailyTotals ≤ pdMaxQ dailyTotals := by
    rw [lambdaRate, npMean, div_le_iff hlenQ]
    have hsum := List.sum_le_card_nsmul dailyTotals (pdMaxQ dailyTotals)
      (fun x hx => le_pdMaxQ dailyTotals x hx)
    rw [nsmul_eq_mul] at hsum
    linarith
  have hcap : lambdaRate dailyTotals < processingCapacity dailyTotals := by
    rw [processingCapacity]
    have : pdMaxQ dailyTotals < pdMaxQ dailyTotals * (11 / 10) := by linarith
    linarith
  have hcappos : 0 < processingCapacity dailyTotals := by
    rw [processingCapacity]
    linarith
  refine ⟨hmean_le, ?_, hcap, ?_⟩
  · rw [utilizationRho, if_pos hcappos, processingCapacity]
    have hstep : lambdaRate dailyTotals / (pdMaxQ dailyTotals * (11 / 10)) ≤
        pdMaxQ dailyTotals / (pdMaxQ dailyTotals * (11 / 10)) := by
      apply div_le_div_of_nonneg_right hmean_le ?_ |>.trans_eq rfl
      linarith
    have heq : pdMaxQ dailyTotals / (pdMaxQ dailyTotals * (11 / 10)) = 10 / 11 := by
      rw [div_eq_iff (by linarith : pdMaxQ dailyTotals * (11 / 10) ≠ 0)]
      ring
    rw [heq] at hstep
    exact hstep
  · rw [avgWaitFactor, if_pos hcap]

/-- Witness for C10 at the concrete daily totals `[1, 2]`. -/
theorem queue_wait_finite_witness :
    lambdaRate [1, 2] ≤ pdMaxQ [1, 2] ∧
    utilizationRho [1, 2] ≤ 10 / 11 ∧
    lambdaRate [1, 2] < processingCapacity [1, 2] ∧
    avgWaitFactor [1, 2] = some (1 / (processingCapacity [1, 2] - lambdaRate [1, 2])) :=
  queue_wait_finite [1, 2] (by simp) (by with_unfolding_all decide)

end UIDAI
